import Mathlib

/-!
Shallow embedding of the react-native-nitro-state C++ reactive engine
(src/cpp/HybridNitroState.cpp, src/cpp/AtomCore.hpp + AtomCore.cpp,
src/cpp/ComputedCore.cpp, src/cpp/BatchManager.hpp + BatchManager.cpp).

Modelling decisions:
* Locks are erased: the engine is modelled sequentially (every C++ operation
  is a critical section on the caller thread; the claims under verification
  are functional, not about data races).
* `jsi::Value` is an opaque type parameter `V` (with `Inhabited V` standing
  for `jsi::Value::undefined()` in the one dead branch of `ComputedCore::get`).
* The two callback shapes actually installed by the engine are embedded as an
  inductive: the external JS subscriber installed by `subscribeAtom` and the
  `markDirty` closure installed by `ComputedCore::addDependency`.
* Callback invocations and compute-function invocations are recorded in an
  event log; an `invoked` event also records the atom's stored value at the
  moment of the call, i.e. what the zero-argument callback would observe by
  reading the atom.
* `unique_ptr<AtomCore>` ownership is modelled by a heap of numbered atom
  cells: the registry maps keys to cell ids and `deleteAtom` frees the cell,
  so a raw `AtomCore*` retained by an unsubscribe closure or a `ComputedCore`
  becomes a dangling id whose dereference is detectable (`Option`).
* `std::unordered_map` is an association list looked up by key;
  `std::set<AtomCore*>` (ordered by pointer) is a sorted deduplicated list of
  cell ids.
-/

namespace NitroState

/-- Error taxonomy of the registry: `throw std::runtime_error("... already exists")`
and `throw std::runtime_error("... not found")`. -/
inductive Err where
  | alreadyExists : Err
  | notFound : Err
deriving DecidableEq, Repr

/-- The two callback shapes the engine installs on an atom's subscriber list:
the external JS callback wrapped by `HybridNitroState::subscribeAtom`, and the
`[this]() { this->markDirty(); }` closure installed by
`ComputedCore::addDependency` (identified by the computed cell's key). -/
inductive Callback where
  | external : Callback
  | markDirty (key : String) : Callback
deriving DecidableEq, Repr

/-- `AtomCore`: stored value, subscriber list (subscription id, callback),
`nextId_` counter, `dirty_` flag.  The constructor sets `dirty_ = false`. -/
structure AtomCore (V : Type) where
  value : V
  subscribers : List (Nat × Callback)
  nextId : Nat
  dirty : Bool

/-- Observable events: a subscriber callback invocation (atom cell id,
subscription id, the atom's stored value at the moment of the call) and a
compute-function invocation (computed cell key). -/
inductive Event (V : Type) where
  | invoked (atomId : Nat) (subId : Nat) (observed : V)
  | computed (key : String)
deriving DecidableEq, Repr

/-- `ComputedCore`: compute function (modelled as reading the registry's
current atom values), dependency cell ids, subscription ids, cached value,
`dirty_` flag (initially `true`, cache initially absent). -/
structure ComputedCore (V : Type) where
  compute : (String → Option V) → V
  dependencies : List Nat
  subscriptionIds : List Nat
  cachedValue : Option V
  dirty : Bool

/-- `BatchManager` singleton state: the pending-notification set of
`AtomCore*` (sorted cell ids) and the `int batchDepth_` counter, which in the
C++ source is a plain `int` and can go negative. -/
structure BatchManager where
  pendingNotifications : List Nat
  batchDepth : Int

/-- `HybridNitroState` plus the heap of `unique_ptr`-owned atom cells and the
process-wide `BatchManager`: `atoms_` maps keys to live cell ids, `computed_`
and `computeFns_` are the computed registries, `events` is the observation
log of the model. -/
structure Store (V : Type) where
  heap : List (Nat × AtomCore V)
  nextAtomId : Nat
  atoms : List (String × Nat)
  computed : List (String × ComputedCore V)
  computeFns : List (String × ((String → Option V) → V))
  batch : BatchManager
  events : List (Event V)

/-- A freshly constructed store: all maps empty, batch depth 0. -/
def Store.empty (V : Type) : Store V :=
  ⟨[], 0, [], [], [], ⟨[], 0⟩, []⟩

/-- The handle captured by the closure `subscribeAtom` returns:
a raw `AtomCore*` (cell id) and the subscription id. -/
structure Handle where
  atomId : Nat
  subId : Nat
deriving DecidableEq, Repr

section AList

variable {κ α : Type} [DecidableEq κ]

/-- `std::unordered_map::find`. -/
def lookupA : List (κ × α) → κ → Option α
  | [], _ => none
  | (k, a) :: t, k' => if k' = k then some a else lookupA t k'

/-- Update the entry at a key in place (no-op when absent). -/
def setA (k : κ) (f : α → α) : List (κ × α) → List (κ × α)
  | [] => []
  | (k', a) :: t => if k = k' then (k', f a) :: t else (k', a) :: setA k f t

/-- `std::unordered_map::erase` by key. -/
def eraseA (k : κ) : List (κ × α) → List (κ × α)
  | [] => []
  | (k', a) :: t => if k = k' then eraseA k t else (k', a) :: eraseA k t

end AList

/-- `std::set<AtomCore*>::insert`: dedup, keep sorted by pointer value. -/
def insertSorted (x : Nat) : List Nat → List Nat
  | [] => [x]
  | y :: ys => if x < y then x :: y :: ys else if x = y then y :: ys else y :: insertSorted x ys

namespace Store

variable {V : Type}

/-- The atom-value view the compute function reads: looking a key up in the
registry and reading the cell's current value (`getAtomValue` semantics). -/
def currentLookup (s : Store V) : String → Option V :=
  fun key =>
    match lookupA s.atoms key with
    | none => none
    | some aid => (lookupA s.heap aid).map AtomCore.value

/-- Invoking one subscriber callback: an external callback invocation is
logged together with the atom's stored value at that moment; the `markDirty`
closure additionally sets the computed cell's dirty flag
(`ComputedCore::markDirty`). -/
def applyCallback (s : Store V) (aid sid : Nat) (cb : Callback) : Store V :=
  match lookupA s.heap aid with
  | none => s
  | some a =>
    let s1 : Store V := { s with events := s.events ++ [Event.invoked aid sid a.value] }
    match cb with
    | Callback.external => s1
    | Callback.markDirty ck =>
        { s1 with computed := setA ck (fun c => { c with dirty := true }) s1.computed }

/-- Invoking a snapshot of the subscriber list, in registration order
(the copy-then-call loop at the end of `AtomCore::notify`). -/
def applyCallbacks (s : Store V) (aid : Nat) : List (Nat × Callback) → Store V
  | [] => s
  | (sid, cb) :: rest => (s.applyCallback aid sid cb).applyCallbacks aid rest

/-- `AtomCore::notify`: early-return when `!dirty_` (the flag is NOT cleared
by a successful notify), otherwise copy the subscriber list under the lock
and invoke every callback outside it. -/
def notifyAtom (s : Store V) (aid : Nat) : Store V :=
  match lookupA s.heap aid with
  | none => s
  | some a => if a.dirty then s.applyCallbacks aid a.subscribers else s

/-- `AtomCore::set`: store the value, raise `dirty_`, then call `notify()`
unconditionally (outside the cell lock). -/
def atomSet (s : Store V) (aid : Nat) (v : V) : Store V :=
  (({ s with heap := setA aid (fun a => { a with value := v, dirty := true }) s.heap }
      : Store V)).notifyAtom aid

/-- `AtomCore::markClean`. -/
def markClean (s : Store V) (aid : Nat) : Store V :=
  { s with heap := setA aid (fun a => { a with dirty := false }) s.heap }

/-- `BatchManager::queueNotification`: insert into the pending set only when
a batch is open. -/
def queueNotification (s : Store V) (aid : Nat) : Store V :=
  if 0 < s.batch.batchDepth then
    { s with batch := { s.batch with
        pendingNotifications := insertSorted aid s.batch.pendingNotifications } }
  else s

/-- `HybridNitroState::createAtom`. -/
def createAtom (s : Store V) (k : String) (v0 : V) : Except Err Unit × Store V :=
  match lookupA s.atoms k with
  | some _ => (Except.error Err.alreadyExists, s)
  | none =>
      (Except.ok (), { s with
        heap := (s.nextAtomId, ⟨v0, [], 0, false⟩) :: s.heap,
        nextAtomId := s.nextAtomId + 1,
        atoms := (k, s.nextAtomId) :: s.atoms })

/-- `HybridNitroState::getAtomValue` (`AtomCore::get` returns the stored
value). -/
def getAtomValue (s : Store V) (k : String) : Except Err V × Store V :=
  match lookupA s.atoms k with
  | none => (Except.error Err.notFound, s)
  | some aid =>
      match lookupA s.heap aid with
      | none => (Except.error Err.notFound, s)
      | some a => (Except.ok a.value, s)

/-- `HybridNitroState::setAtomValue`: look the cell up; when a batch is open,
`set` (which itself notifies), then `markClean`, then queue the cell;
otherwise just `set`. -/
def setAtomValue (s : Store V) (k : String) (v : V) : Except Err Unit × Store V :=
  match lookupA s.atoms k with
  | none => (Except.error Err.notFound, s)
  | some aid =>
      if 0 < s.batch.batchDepth then
        (Except.ok (), (((s.atomSet aid v).markClean aid).queueNotification aid))
      else
        (Except.ok (), s.atomSet aid v)

/-- `HybridNitroState::subscribeAtom`: install the external callback
(`AtomCore::subscribe` appends `(nextId_++, callback)`), return the closure
capturing the raw `AtomCore*` and the subscription id. -/
def subscribeAtom (s : Store V) (k : String) : Except Err Handle × Store V :=
  match lookupA s.atoms k with
  | none => (Except.error Err.notFound, s)
  | some aid =>
      match lookupA s.heap aid with
      | none => (Except.error Err.notFound, s)
      | some a =>
          (Except.ok ⟨aid, a.nextId⟩,
            { s with heap := setA aid (fun x =>
                { x with subscribers := x.subscribers ++ [(x.nextId, Callback.external)],
                         nextId := x.nextId + 1 }) s.heap })

/-- Invoking the returned unsubscribe closure:
`atom->unsubscribe(subscriptionId)` through the captured raw pointer.
`none` models dereferencing a cell that `deleteAtom` has already destroyed
(use-after-free in the C++). -/
def runHandle (h : Handle) (s : Store V) : Option (Store V) :=
  match lookupA s.heap h.atomId with
  | none => none
  | some _ =>
      some { s with heap := setA h.atomId (fun x =>
        { x with subscribers := x.subscribers.filter (fun p => p.1 ≠ h.subId) }) s.heap }

/-- `HybridNitroState::deleteAtom`: `atoms_.erase(key)` — a no-op on an
absent key; on a present key the owning `unique_ptr` destroys the cell. -/
def deleteAtom (s : Store V) (k : String) : Store V :=
  match lookupA s.atoms k with
  | none => s
  | some aid => { s with atoms := eraseA k s.atoms, heap := eraseA aid s.heap }

/-- The dependency-subscription loop of `createComputed`: for each dependency
key that names an existing atom, `ComputedCore::addDependency` records the
cell and subscribes the `markDirty` closure to it; unknown keys are skipped. -/
def addDeps (ck : String) : List String → ComputedCore V → Store V → ComputedCore V × Store V
  | [], core, s => (core, s)
  | d :: rest, core, s =>
      match lookupA s.atoms d with
      | none => addDeps ck rest core s
      | some aid =>
          match lookupA s.heap aid with
          | none => addDeps ck rest core s
          | some a =>
              addDeps ck rest
                { core with dependencies := core.dependencies ++ [aid],
                            subscriptionIds := core.subscriptionIds ++ [a.nextId] }
                { s with heap := setA aid (fun x =>
                    { x with subscribers := x.subscribers ++ [(x.nextId, Callback.markDirty ck)],
                             nextId := x.nextId + 1 }) s.heap }

/-- `HybridNitroState::createComputed`: duplicate-key check against
`computed_` only, store the compute function, build the `ComputedCore`
(cache absent, `dirty_ = true`), subscribe to existing dependencies, insert. -/
def createComputed (s : Store V) (ck : String) (deps : List String)
    (f : (String → Option V) → V) : Except Err Unit × Store V :=
  match lookupA s.computed ck with
  | some _ => (Except.error Err.alreadyExists, s)
  | none =>
      let s1 : Store V := { s with computeFns := (ck, f) :: s.computeFns }
      let p := addDeps ck deps (⟨f, [], [], none, true⟩ : ComputedCore V) s1
      (Except.ok (), { p.2 with computed := (ck, p.1) :: p.2.computed })

/-- `HybridNitroState::getComputedValue` / `ComputedCore::get`: recompute
when dirty or never computed (logging the compute invocation), cache the
result and clear `dirty_`; otherwise return the cached value.  The
`Inhabited` default stands for `jsi::Value::undefined()` in the dead branch
where the cache is absent yet the cell is clean. -/
def getComputedValue [Inhabited V] (s : Store V) (ck : String) : Except Err V × Store V :=
  match lookupA s.computed ck with
  | none => (Except.error Err.notFound, s)
  | some core =>
      if core.dirty || core.cachedValue.isNone then
        let r := core.compute s.currentLookup
        (Except.ok r,
          { s with
            computed := setA ck (fun _ => { core with cachedValue := some r, dirty := false }) s.computed,
            events := s.events ++ [Event.computed ck] })
      else
        (Except.ok (core.cachedValue.getD default), s)

/-- `~ComputedCore`: unsubscribe from every dependency (pairing cell ids with
subscription ids exactly as the bounded index loop does).
`dependencies_[i]` is a raw `AtomCore*`; when `deleteAtom` has already
destroyed that cell, `->unsubscribe(...)` dereferences freed memory — a
use-after-free, detectable here as `none`, with the same discipline as
`runHandle`. -/
def unsubPairs : List (Nat × Nat) → Store V → Option (Store V)
  | [], s => some s
  | (aid, sid) :: rest, s =>
      match lookupA s.heap aid with
      | none => none
      | some _ =>
          unsubPairs rest { s with heap := setA aid (fun x =>
            { x with subscribers := x.subscribers.filter (fun p => p.1 ≠ sid) }) s.heap }

/-- `HybridNitroState::deleteComputed`: `computed_.erase(key)` (running the
destructor of a present cell, which walks its dependency pointers) then
`computeFns_.erase(key)`; no-ops on absent keys.  `none` propagates the
destructor's use-after-free when a dependency atom was deleted earlier. -/
def deleteComputed (s : Store V) (ck : String) : Option (Store V) :=
  match lookupA s.computed ck with
  | none => some { s with computeFns := eraseA ck s.computeFns }
  | some core =>
      (unsubPairs (core.dependencies.zip core.subscriptionIds) s).map
        (fun s1 => { s1 with computed := eraseA ck s1.computed,
                             computeFns := eraseA ck s1.computeFns })

/-- `BatchManager::startBatch`: `batchDepth_++`. -/
def startBatch (s : Store V) : Store V :=
  { s with batch := { s.batch with batchDepth := s.batch.batchDepth + 1 } }

/-- The flush loop at the end of `BatchManager::endBatch`: for each pending
cell, `notify()` then `markClean()`. -/
def processPending : List Nat → Store V → Store V
  | [], s => s
  | aid :: rest, s => processPending rest ((s.notifyAtom aid).markClean aid)

/-- `BatchManager::endBatch`: decrement `batchDepth_` unconditionally; only
when it lands exactly on 0, take the pending set and flush it. -/
def endBatch (s : Store V) : Store V :=
  let d := s.batch.batchDepth - 1
  if d = 0 then
    processPending s.batch.pendingNotifications
      { s with batch := { pendingNotifications := [], batchDepth := d } }
  else
    { s with batch := { s.batch with batchDepth := d } }

/-- A sequence of `setAtomValue` calls to one key. -/
def runSets (k : String) : List V → Store V → Store V
  | [], s => s
  | v :: vs, s => runSets k vs (s.setAtomValue k v).2

/-- A sequence of `setAtomValue` calls to possibly different keys. -/
def runWrites : List (String × V) → Store V → Store V
  | [], s => s
  | w :: ws, s => runWrites ws (s.setAtomValue w.1 w.2).2

end Store

/-- The effect one callback invocation has on the computed registry:
`markDirty` raises the dirty flag of its cell, an external callback leaves
the registry alone. -/
def dirtyEffect {V : Type} (cb : Callback) (c : List (String × ComputedCore V)) :
    List (String × ComputedCore V) :=
  match cb with
  | Callback.external => c
  | Callback.markDirty ck => setA ck (fun co => { co with dirty := true }) c

/-- The accumulated effect of invoking a subscriber list on the computed
registry. -/
def applyDirties {V : Type} : List (Nat × Callback) → List (String × ComputedCore V) →
    List (String × ComputedCore V)
  | [], c => c
  | p :: rest, c => applyDirties rest (dirtyEffect p.2 c)

/-- Whether a subscriber entry is the `markDirty` closure of the given
computed key. -/
def hitsKey (ck : String) (p : Nat × Callback) : Bool :=
  match p.2 with
  | Callback.markDirty d => decide (d = ck)
  | Callback.external => false

/-- Concrete fixture: a store holding one atom `x` with value 1. -/
def atomStoreX : Store Nat :=
  ((Store.empty Nat).createAtom "x" 1).2

/-- Concrete fixture: a store holding one atom `a` with value 1. -/
def atomStoreA : Store Nat :=
  ((Store.empty Nat).createAtom "a" 1).2

/-- Concrete fixture: atom `a` plus a computed `c` depending on `a`
(compute reads `a` and adds 10). -/
def depStoreAC : Store Nat :=
  (atomStoreA.createComputed "c" ["a"] (fun g => (g "a").getD 0 + 10)).2

/-- Concrete fixture: atom `x` plus an independent computed `c` with no
dependencies. -/
def fullStoreXC : Store Nat :=
  (atomStoreX.createComputed "c" [] (fun g => (g "x").getD 0)).2

/-- Concrete fixture: atom `x` with value 0 and two external subscribers
(subscription ids 0 and 1). -/
def twoSubsStore : Store Nat :=
  ((((Store.empty Nat).createAtom "x" 0).2.subscribeAtom "x").2.subscribeAtom "x").2

/-- Concrete fixture: atom `x` with value 0 and one external subscriber
(subscription id 0). -/
def oneSubStore : Store Nat :=
  (((Store.empty Nat).createAtom "x" 0).2.subscribeAtom "x").2

section AListLemmas

variable {κ α : Type} [DecidableEq κ]

theorem lookupA_setA_self (k : κ) (f : α → α) :
    ∀ l : List (κ × α), lookupA (setA k f l) k = (lookupA l k).map f
  | [] => rfl
  | (k', a) :: t => by
      by_cases h : k = k'
      · subst h; simp [setA, lookupA]
      · simp [setA, lookupA, h, Ne.symm h, lookupA_setA_self k f t]

theorem lookupA_setA_ne (k k' : κ) (f : α → α) (hne : k' ≠ k) :
    ∀ l : List (κ × α), lookupA (setA k f l) k' = lookupA l k'
  | [] => rfl
  | (k'', a) :: t => by
      by_cases h : k = k''
      · subst h; simp [setA, lookupA, hne]
      · simp [setA, lookupA, h, lookupA_setA_ne k k' f hne t]

theorem lookupA_eraseA_self (k : κ) :
    ∀ l : List (κ × α), lookupA (eraseA k l) k = none
  | [] => rfl
  | (k', a) :: t => by
      by_cases h : k = k'
      · subst h; simp [eraseA, lookupA_eraseA_self k t]
      · simp [eraseA, lookupA, h, Ne.symm h, lookupA_eraseA_self k t]

theorem lookupA_eraseA_ne (k k' : κ) (hne : k' ≠ k) :
    ∀ l : List (κ × α), lookupA (eraseA k l) k' = lookupA l k'
  | [] => rfl
  | (k'', a) :: t => by
      by_cases h : k = k''
      · subst h; simp [eraseA, lookupA, hne, lookupA_eraseA_ne k k' hne t]
      · simp [eraseA, lookupA, h, lookupA_eraseA_ne k k' hne t]

theorem eraseA_of_lookupA_none (k : κ) :
    ∀ l : List (κ × α), lookupA l k = none → eraseA k l = l
  | [], _ => rfl
  | (k', a) :: t, h => by
      by_cases hk : k = k'
      · subst hk; simp [lookupA] at h
      · rw [lookupA, if_neg hk] at h
        simp [eraseA, hk, eraseA_of_lookupA_none k t h]

theorem setA_setA (k : κ) (f g : α → α) :
    ∀ l : List (κ × α), setA k g (setA k f l) = setA k (fun x => g (f x)) l
  | [] => rfl
  | (k', a) :: t => by
      by_cases h : k = k'
      · subst h; simp [setA]
      · simp [setA, h, setA_setA k f g t]

end AListLemmas

section EngineLemmas

variable {V : Type}

theorem applyCallback_spec (s : Store V) (aid sid : Nat) (cb : Callback) (a : AtomCore V)
    (h : lookupA s.heap aid = some a) :
    s.applyCallback aid sid cb =
      { s with computed := dirtyEffect cb s.computed,
               events := s.events ++ [Event.invoked aid sid a.value] } := by
  cases cb <;> simp [Store.applyCallback, h, dirtyEffect]

theorem applyCallbacks_spec (aid : Nat) (a : AtomCore V) :
    ∀ (subs : List (Nat × Callback)) (s : Store V), lookupA s.heap aid = some a →
    s.applyCallbacks aid subs =
      { s with computed := applyDirties subs s.computed,
               events := s.events ++ subs.map (fun p => Event.invoked aid p.1 a.value) }
  | [], s, h => by simp [Store.applyCallbacks, applyDirties]
  | (sid, cb) :: rest, s, h => by
      rw [Store.applyCallbacks, applyCallback_spec s aid sid cb a h,
          applyCallbacks_spec aid a rest _ (by simpa using h)]
      simp [applyDirties, List.append_assoc]

theorem atomSet_spec (s : Store V) (aid : Nat) (v : V) (a : AtomCore V)
    (h2 : lookupA s.heap aid = some a) :
    s.atomSet aid v =
      { s with heap := setA aid (fun x => { x with value := v, dirty := true }) s.heap,
               computed := applyDirties a.subscribers s.computed,
               events := s.events ++ a.subscribers.map (fun p => Event.invoked aid p.1 v) } := by
  have hset : lookupA (setA aid (fun x => { x with value := v, dirty := true }) s.heap) aid
      = some { a with value := v, dirty := true } := by
    rw [lookupA_setA_self, h2, Option.map_some']
  simp only [Store.atomSet, Store.notifyAtom, hset]
  rw [applyCallbacks_spec aid { a with value := v, dirty := true } a.subscribers _ hset]
  simp

theorem setAtomValue_spec_nobatch (s : Store V) (k : String) (v : V) (aid : Nat) (a : AtomCore V)
    (h1 : lookupA s.atoms k = some aid) (h2 : lookupA s.heap aid = some a)
    (h3 : ¬ 0 < s.batch.batchDepth) :
    s.setAtomValue k v = (Except.ok (),
      { s with heap := setA aid (fun x => { x with value := v, dirty := true }) s.heap,
               computed := applyDirties a.subscribers s.computed,
               events := s.events ++ a.subscribers.map (fun p => Event.invoked aid p.1 v) }) := by
  simp only [Store.setAtomValue, h1, if_neg h3]
  rw [atomSet_spec s aid v a h2]

theorem setAtomValue_spec_batch (s : Store V) (k : String) (v : V) (aid : Nat) (a : AtomCore V)
    (h1 : lookupA s.atoms k = some aid) (h2 : lookupA s.heap aid = some a)
    (h3 : 0 < s.batch.batchDepth) :
    s.setAtomValue k v = (Except.ok (),
      { s with heap := setA aid (fun x => { x with value := v, dirty := false }) s.heap,
               computed := applyDirties a.subscribers s.computed,
               events := s.events ++ a.subscribers.map (fun p => Event.invoked aid p.1 v),
               batch := { s.batch with
                 pendingNotifications := insertSorted aid s.batch.pendingNotifications } }) := by
  simp only [Store.setAtomValue, h1, if_pos h3]
  rw [atomSet_spec s aid v a h2]
  simp only [Store.markClean, Store.queueNotification]
  rw [setA_setA]
  simp only [h3, if_pos]

theorem runSets_events (k : String) (aid : Nat) :
    ∀ (vs : List V) (s : Store V) (a : AtomCore V),
    lookupA s.atoms k = some aid → lookupA s.heap aid = some a → ¬ 0 < s.batch.batchDepth →
    (Store.runSets k vs s).events =
      s.events ++ vs.flatMap (fun v => a.subscribers.map (fun p => Event.invoked aid p.1 v))
  | [], s, a, _, _, _ => by simp [Store.runSets]
  | v :: vs, s, a, h1, h2, h3 => by
      have hs2 : (s.setAtomValue k v).2 =
          { s with heap := setA aid (fun x => { x with value := v, dirty := true }) s.heap,
                   computed := applyDirties a.subscribers s.computed,
                   events := s.events ++ a.subscribers.map (fun p => Event.invoked aid p.1 v) } := by
        rw [setAtomValue_spec_nobatch s k v aid a h1 h2 h3]
      have h2' : lookupA (setA aid (fun x => { x with value := v, dirty := true }) s.heap) aid
          = some { a with value := v, dirty := true } := by
        rw [lookupA_setA_self, h2, Option.map_some']
      rw [Store.runSets, hs2]
      rw [runSets_events k aid vs
          { s with heap := setA aid (fun x => { x with value := v, dirty := true }) s.heap,
                   computed := applyDirties a.subscribers s.computed,
                   events := s.events ++ a.subscribers.map (fun p => Event.invoked aid p.1 v) }
          { a with value := v, dirty := true } h1 h2' h3]
      simp [List.append_assoc]

theorem applyDirties_lookupA (ck : String) :
    ∀ (subs : List (Nat × Callback)) (c : List (String × ComputedCore V))
      (core : ComputedCore V), lookupA c ck = some core →
    lookupA (applyDirties subs c) ck =
      some (if subs.any (hitsKey ck) then { core with dirty := true } else core)
  | [], c, core, h => by simpa [applyDirties] using h
  | (sid, cb) :: rest, c, core, h => by
      cases cb with
      | external =>
          show lookupA (applyDirties rest c) ck = _
          rw [applyDirties_lookupA ck rest c core h]
          cases hr : rest.any (hitsKey ck) <;> simp [hitsKey, hr]
      | markDirty d =>
          by_cases hd : d = ck
          · subst hd
            have h' : lookupA (setA d (fun co => { co with dirty := true }) c) d
                = some { core with dirty := true } := by
              rw [lookupA_setA_self, h, Option.map_some']
            show lookupA (applyDirties rest (setA d (fun co => { co with dirty := true }) c)) d = _
            rw [applyDirties_lookupA d rest _ _ h']
            cases hr : rest.any (hitsKey d) <;> simp [hitsKey, hr]
          · have h' : lookupA (setA d (fun co => { co with dirty := true }) c) ck
                = some core := by
              rw [lookupA_setA_ne d ck _ (fun he => hd he.symm), h]
            show lookupA (applyDirties rest (setA d (fun co => { co with dirty := true }) c)) ck = _
            rw [applyDirties_lookupA ck rest _ core h']
            cases hr : rest.any (hitsKey ck) <;> simp [hitsKey, hr, hd]

theorem setAtomValue_computed (s : Store V) (k : String) (v : V) :
    ((s.setAtomValue k v).2).computed = s.computed ∨
    ∃ aid a, lookupA s.atoms k = some aid ∧ lookupA s.heap aid = some a ∧
      ((s.setAtomValue k v).2).computed = applyDirties a.subscribers s.computed := by
  cases hA : lookupA s.atoms k with
  | none => left; simp [Store.setAtomValue, hA]
  | some aid =>
      cases hH : lookupA s.heap aid with
      | none =>
          left
          by_cases hb : 0 < s.batch.batchDepth <;>
            simp [Store.setAtomValue, hA, hb, Store.atomSet, Store.notifyAtom,
              lookupA_setA_self, hH, Store.markClean, Store.queueNotification]
      | some a =>
          right
          refine ⟨aid, a, rfl, hH, ?_⟩
          by_cases hb : 0 < s.batch.batchDepth
          · rw [setAtomValue_spec_batch s k v aid a hA hH hb]
          · rw [setAtomValue_spec_nobatch s k v aid a hA hH hb]

theorem setAtomValue_dirty_mono (s : Store V) (k : String) (v : V) (ck : String)
    (core : ComputedCore V) (h : lookupA s.computed ck = some core) :
    ∃ core', lookupA ((s.setAtomValue k v).2).computed ck = some core' ∧
      core'.compute = core.compute ∧ (core.dirty = true → core'.dirty = true) := by
  rcases setAtomValue_computed s k v with hc | ⟨aid, a, _, _, hc⟩
  · exact ⟨core, by rw [hc, h], rfl, fun hd => hd⟩
  · rw [hc, applyDirties_lookupA ck a.subscribers s.computed core h]
    by_cases hb : a.subscribers.any (hitsKey ck) = true
    · exact ⟨{ core with dirty := true }, by rw [if_pos hb], rfl, fun _ => rfl⟩
    · exact ⟨core, by rw [if_neg hb], rfl, fun hd => hd⟩

theorem runWrites_dirty (ck : String) :
    ∀ (ws : List (String × V)) (s : Store V) (core : ComputedCore V),
    lookupA s.computed ck = some core → core.dirty = true →
    ∃ core', lookupA (Store.runWrites ws s).computed ck = some core' ∧
      core'.compute = core.compute ∧ core'.dirty = true
  | [], s, core, h, hd => ⟨core, by simpa [Store.runWrites] using h, rfl, hd⟩
  | w :: ws, s, core, h, hd => by
      obtain ⟨c1, hl, hcomp, hdm⟩ := setAtomValue_dirty_mono s w.1 w.2 ck core h
      obtain ⟨c2, hl2, hcomp2, hd2⟩ := runWrites_dirty ck ws _ c1 hl (hdm hd)
      exact ⟨c2, by rw [Store.runWrites]; exact hl2, by rw [hcomp2, hcomp], hd2⟩

theorem setAtomValue_marks_dirty (s : Store V) (d : String) (v : V) (ck : String)
    (core : ComputedCore V) (aid sid : Nat) (a : AtomCore V)
    (h1 : lookupA s.computed ck = some core)
    (h2 : lookupA s.atoms d = some aid) (h3 : lookupA s.heap aid = some a)
    (h4 : (sid, Callback.markDirty ck) ∈ a.subscribers) :
    ∃ core', lookupA ((s.setAtomValue d v).2).computed ck = some core' ∧
      core'.compute = core.compute ∧ core'.dirty = true := by
  have hany : a.subscribers.any (hitsKey ck) = true :=
    List.any_eq_true.mpr ⟨_, h4, by simp [hitsKey]⟩
  by_cases hb : 0 < s.batch.batchDepth
  · rw [setAtomValue_spec_batch s d v aid a h2 h3 hb]
    refine ⟨{ core with dirty := true }, ?_, rfl, rfl⟩
    show lookupA (applyDirties a.subscribers s.computed) ck = _
    rw [applyDirties_lookupA ck a.subscribers s.computed core h1, if_pos hany]
  · rw [setAtomValue_spec_nobatch s d v aid a h2 h3 hb]
    refine ⟨{ core with dirty := true }, ?_, rfl, rfl⟩
    show lookupA (applyDirties a.subscribers s.computed) ck = _
    rw [applyDirties_lookupA ck a.subscribers s.computed core h1, if_pos hany]

theorem getComputedValue_dirty [Inhabited V] (s : Store V) (ck : String)
    (core : ComputedCore V) (h : lookupA s.computed ck = some core) (hd : core.dirty = true) :
    s.getComputedValue ck = (Except.ok (core.compute s.currentLookup),
      { s with
          computed := setA ck
              (fun _ => { core with
                            cachedValue := some (core.compute s.currentLookup),
                            dirty := false })
              s.computed,
          events := s.events ++ [Event.computed ck] }) := by
  simp [Store.getComputedValue, h, hd]

theorem getComputedValue_clean [Inhabited V] (s : Store V) (ck : String)
    (core : ComputedCore V) (r : V) (h : lookupA s.computed ck = some core)
    (hd : core.dirty = false) (hc : core.cachedValue = some r) :
    s.getComputedValue ck = (Except.ok r, s) := by
  simp [Store.getComputedValue, h, hd, hc]

theorem addDeps_spec (ck : String) :
    ∀ (deps : List String) (core : ComputedCore V) (s : Store V),
    (Store.addDeps ck deps core s).1.compute = core.compute ∧
    (Store.addDeps ck deps core s).1.cachedValue = core.cachedValue ∧
    (Store.addDeps ck deps core s).1.dirty = core.dirty ∧
    (Store.addDeps ck deps core s).2.atoms = s.atoms ∧
    (Store.addDeps ck deps core s).2.computed = s.computed ∧
    (Store.addDeps ck deps core s).2.computeFns = s.computeFns ∧
    (Store.addDeps ck deps core s).2.events = s.events ∧
    (Store.addDeps ck deps core s).2.batch = s.batch ∧
    ∀ i, (lookupA (Store.addDeps ck deps core s).2.heap i).map AtomCore.value
        = (lookupA s.heap i).map AtomCore.value
  | [], core, s => by simp [Store.addDeps]
  | d :: rest, core, s => by
      rw [Store.addDeps]
      cases hA : lookupA s.atoms d with
      | none => simp only [hA]; exact addDeps_spec ck rest core s
      | some aid =>
          simp only [hA]
          cases hH : lookupA s.heap aid with
          | none => simp only [hH]; exact addDeps_spec ck rest core s
          | some a =>
              simp only [hH]
              obtain ⟨c1, c2, c3, s1, s2, s3, s4, s5, hv⟩ := addDeps_spec ck rest
                { core with dependencies := core.dependencies ++ [aid],
                            subscriptionIds := core.subscriptionIds ++ [a.nextId] }
                { s with heap := setA aid (fun x =>
                    { x with subscribers := x.subscribers ++ [(x.nextId, Callback.markDirty ck)],
                             nextId := x.nextId + 1 }) s.heap }
              refine ⟨by rw [c1], by rw [c2], by rw [c3], by rw [s1], by rw [s2], by rw [s3],
                by rw [s4], by rw [s5], ?_⟩
              intro i
              rw [hv i]
              by_cases hi : i = aid
              · subst hi
                rw [lookupA_setA_self, hH]
                rfl
              · rw [lookupA_setA_ne aid i _ hi]

theorem createComputed_spec (s : Store V) (ck : String) (deps : List String)
    (f : (String → Option V) → V) (h : lookupA s.computed ck = none) :
    (s.createComputed ck deps f).1 = Except.ok () ∧
    (∃ core : ComputedCore V,
       lookupA ((s.createComputed ck deps f).2).computed ck = some core ∧
       core.compute = f ∧ core.cachedValue = none ∧ core.dirty = true) ∧
    ((s.createComputed ck deps f).2).atoms = s.atoms ∧
    ((s.createComputed ck deps f).2).events = s.events ∧
    (∀ i, (lookupA ((s.createComputed ck deps f).2).heap i).map AtomCore.value
        = (lookupA s.heap i).map AtomCore.value) := by
  obtain ⟨c1, c2, c3, s1, s2, s3, s4, s5, hv⟩ := addDeps_spec ck deps
    (⟨f, [], [], none, true⟩ : ComputedCore V)
    ({ s with computeFns := (ck, f) :: s.computeFns })
  have hcc : s.createComputed ck deps f =
      (Except.ok (),
        { (Store.addDeps ck deps (⟨f, [], [], none, true⟩ : ComputedCore V)
            ({ s with computeFns := (ck, f) :: s.computeFns })).2 with
          computed := (ck, (Store.addDeps ck deps (⟨f, [], [], none, true⟩ : ComputedCore V)
            ({ s with computeFns := (ck, f) :: s.computeFns })).1) ::
            (Store.addDeps ck deps (⟨f, [], [], none, true⟩ : ComputedCore V)
              ({ s with computeFns := (ck, f) :: s.computeFns })).2.computed } ) := by
    unfold Store.createComputed
    rw [h]
  rw [hcc]
  refine ⟨rfl, ⟨_, ?_, c1, c2, c3⟩, s1, s4, hv⟩
  simp [lookupA]

end EngineLemmas

/-- C1 (the claim fails on the code; this theorem evaluates the engine at the
failing input): with one subscriber on atom `x`, the batched trace
`startBatch; set x 1; set x 2; endBatch` invokes the subscriber during each
`set` — both invocation events are in the log BEFORE `endBatch`, the first
observing the non-final value 1 — and `endBatch` itself delivers nothing
(the log is unchanged by it), even though the stored value is 2.  This
contradicts the claim that no subscriber runs before the outermost
`endBatch` and that afterwards each subscriber runs at most once seeing only
the final value. -/
theorem spec_C1 :
    (((oneSubStore.startBatch).setAtomValue "x" 1).2.setAtomValue "x" 2).2.events
      = [Event.invoked 0 0 1, Event.invoked 0 0 2] ∧
    ((((oneSubStore.startBatch).setAtomValue "x" 1).2.setAtomValue "x" 2).2.endBatch).events
      = [Event.invoked 0 0 1, Event.invoked 0 0 2] ∧
    (((((oneSubStore.startBatch).setAtomValue "x" 1).2.setAtomValue "x" 2).2.endBatch).getAtomValue
        "x").1 = Except.ok 2 :=
  ⟨rfl, rfl, rfl⟩

/-- C2 (the claim fails on the code; this theorem evaluates the engine at the
failing input): an unmatched `endBatch` on a store at depth 0 drives
`batchDepth_` to -1; a following well-matched `startBatch`/`endBatch` pair
only restores depth 0, so `isBatching()` is false inside it: the `set`
notifies immediately (the invocation event appears before the closing
`endBatch`), the closing `endBatch` delivers nothing, and the depth is -1
again afterwards.  This contradicts the claim that the depth does not
underflow and that a subsequent pair still defers and delivers. -/
theorem spec_C2 :
    (oneSubStore.endBatch).batch.batchDepth = -1 ∧
    ((oneSubStore.endBatch).startBatch).batch.batchDepth = 0 ∧
    ((((oneSubStore.endBatch).startBatch).setAtomValue "x" 5).2).events
      = [Event.invoked 0 0 5] ∧
    (((((oneSubStore.endBatch).startBatch).setAtomValue "x" 5).2).endBatch).events
      = [Event.invoked 0 0 5] ∧
    (((((oneSubStore.endBatch).startBatch).setAtomValue "x" 5).2).endBatch).batch.batchDepth
      = -1 :=
  ⟨rfl, rfl, rfl, rfl, rfl⟩

/-- C3: with no batch open, every `setAtomValue` on an existing atom invokes
each currently registered subscriber exactly once, in registration order:
over any sequence of sets, the event log grows by exactly one invocation
event per subscriber per set, listed in subscriber-list order, each
observing that set's value. -/
theorem spec_C3 {V : Type} (s : Store V) (k : String) (aid : Nat) (a : AtomCore V) (vs : List V)
    (h1 : lookupA s.atoms k = some aid) (h2 : lookupA s.heap aid = some a)
    (h3 : ¬ 0 < s.batch.batchDepth) :
    (Store.runSets k vs s).events =
      s.events ++ vs.flatMap (fun v => a.subscribers.map (fun p => Event.invoked aid p.1 v)) :=
  runSets_events k aid vs s a h1 h2 h3

/-- Witness for C3: two subscribers on atom `x`, two unbatched sets — four
invocation events, in registration order per set, observing each set's
value. -/
theorem spec_C3_witness :
    (Store.runSets "x" [10, 20] twoSubsStore).events =
      [Event.invoked 0 0 10, Event.invoked 0 1 10,
       Event.invoked 0 0 20, Event.invoked 0 1 20] :=
  spec_C3 twoSubsStore "x" 0
    ⟨0, [(0, Callback.external), (1, Callback.external)], 2, false⟩
    [10, 20] rfl rfl (by decide)

/-- C6: `createAtom` on an existing key fails with `AlreadyExists`;
`getAtomValue`, `setAtomValue` and `subscribeAtom` on an unknown key fail
with `NotFound`; every such failing call returns the store exactly as it
was (no partial mutation on error). -/
theorem spec_C6 {V : Type} (s : Store V) (k kmiss : String) (v : V) (aid : Nat)
    (hk : lookupA s.atoms k = some aid) (hm : lookupA s.atoms kmiss = none) :
    s.createAtom k v = (Except.error Err.alreadyExists, s) ∧
    s.getAtomValue kmiss = (Except.error Err.notFound, s) ∧
    s.setAtomValue kmiss v = (Except.error Err.notFound, s) ∧
    s.subscribeAtom kmiss = (Except.error Err.notFound, s) := by
  refine ⟨?_, ?_, ?_, ?_⟩ <;>
    simp [Store.createAtom, Store.getAtomValue, Store.setAtomValue, Store.subscribeAtom, hk, hm]

/-- Witness for C6 on a concrete store holding atom `x`. -/
theorem spec_C6_witness :
    atomStoreX.createAtom "x" 2 = (Except.error Err.alreadyExists, atomStoreX) ∧
    atomStoreX.getAtomValue "missing" = (Except.error Err.notFound, atomStoreX) ∧
    atomStoreX.setAtomValue "missing" 2 = (Except.error Err.notFound, atomStoreX) ∧
    atomStoreX.subscribeAtom "missing" = (Except.error Err.notFound, atomStoreX) :=
  spec_C6 atomStoreX "x" "missing" 2 0 rfl rfl

/-- C7 (the claim fails on the code; this theorem evaluates the engine at the
failing input): while the atom is alive the returned unsubscribe handle does
remove exactly its own registration (the other subscriber survives) and a
second invocation is a harmless no-op; but after `deleteAtom` destroys the
`AtomCore`, invoking the handle dereferences the captured raw pointer into
freed memory (`none` in the model) instead of being a no-op as the claim
states. -/
theorem spec_C7 :
    (Store.runHandle ⟨0, 0⟩ twoSubsStore).map
        (fun t => (lookupA t.heap 0).map AtomCore.subscribers)
      = some (some [(1, Callback.external)]) ∧
    Option.bind (Store.runHandle ⟨0, 0⟩ twoSubsStore) (Store.runHandle ⟨0, 0⟩)
      = Store.runHandle ⟨0, 0⟩ twoSubsStore ∧
    Store.runHandle ⟨0, 0⟩ (twoSubsStore.deleteAtom "x") = none :=
  ⟨rfl, rfl, rfl⟩

/-- C8: round trip — after `createAtom k v1`, `getAtomValue k` returns `v1`;
after a subsequent `setAtomValue k v2`, `getAtomValue k` returns `v2` (last
writer wins within one cell). -/
theorem spec_C8 {V : Type} (s : Store V) (k : String) (v1 v2 : V)
    (h : lookupA s.atoms k = none) :
    (s.createAtom k v1).1 = Except.ok () ∧
    ((s.createAtom k v1).2.getAtomValue k).1 = Except.ok v1 ∧
    ((s.createAtom k v1).2.setAtomValue k v2).1 = Except.ok () ∧
    ((((s.createAtom k v1).2.setAtomValue k v2).2).getAtomValue k).1 = Except.ok v2 := by
  have hcr : s.createAtom k v1 = (Except.ok (),
      { s with heap := (s.nextAtomId, (⟨v1, [], 0, false⟩ : AtomCore V)) :: s.heap,
               nextAtomId := s.nextAtomId + 1,
               atoms := (k, s.nextAtomId) :: s.atoms }) := by
    simp only [Store.createAtom, h]
  have hA1 : lookupA ((k, s.nextAtomId) :: s.atoms) k = some s.nextAtomId := by
    simp [lookupA]
  have hH1 : lookupA ((s.nextAtomId, (⟨v1, [], 0, false⟩ : AtomCore V)) :: s.heap) s.nextAtomId
      = some ⟨v1, [], 0, false⟩ := by
    simp [lookupA]
  rw [hcr]
  refine ⟨rfl, ?_, ?_, ?_⟩
  · simp [Store.getAtomValue, hA1, hH1]
  · by_cases hb : 0 < s.batch.batchDepth
    · rw [setAtomValue_spec_batch
        { s with heap := (s.nextAtomId, (⟨v1, [], 0, false⟩ : AtomCore V)) :: s.heap,
                 nextAtomId := s.nextAtomId + 1,
                 atoms := (k, s.nextAtomId) :: s.atoms }
        k v2 s.nextAtomId ⟨v1, [], 0, false⟩ hA1 hH1 hb]
    · rw [setAtomValue_spec_nobatch
        { s with heap := (s.nextAtomId, (⟨v1, [], 0, false⟩ : AtomCore V)) :: s.heap,
                 nextAtomId := s.nextAtomId + 1,
                 atoms := (k, s.nextAtomId) :: s.atoms }
        k v2 s.nextAtomId ⟨v1, [], 0, false⟩ hA1 hH1 hb]
  · by_cases hb : 0 < s.batch.batchDepth
    · rw [setAtomValue_spec_batch
        { s with heap := (s.nextAtomId, (⟨v1, [], 0, false⟩ : AtomCore V)) :: s.heap,
                 nextAtomId := s.nextAtomId + 1,
                 atoms := (k, s.nextAtomId) :: s.atoms }
        k v2 s.nextAtomId ⟨v1, [], 0, false⟩ hA1 hH1 hb]
      simp [Store.getAtomValue, hA1, lookupA_setA_self, hH1]
    · rw [setAtomValue_spec_nobatch
        { s with heap := (s.nextAtomId, (⟨v1, [], 0, false⟩ : AtomCore V)) :: s.heap,
                 nextAtomId := s.nextAtomId + 1,
                 atoms := (k, s.nextAtomId) :: s.atoms }
        k v2 s.nextAtomId ⟨v1, [], 0, false⟩ hA1 hH1 hb]
      simp [Store.getAtomValue, hA1, lookupA_setA_self, hH1]

/-- Witness for C8 starting from the empty store. -/
theorem spec_C8_witness :
    ((Store.empty Nat).createAtom "x" 1).1 = Except.ok () ∧
    (((Store.empty Nat).createAtom "x" 1).2.getAtomValue "x").1 = Except.ok 1 ∧
    (((Store.empty Nat).createAtom "x" 1).2.setAtomValue "x" 2).1 = Except.ok () ∧
    (((((Store.empty Nat).createAtom "x" 1).2.setAtomValue "x" 2).2).getAtomValue "x").1
      = Except.ok 2 :=
  spec_C8 (Store.empty Nat) "x" 1 2 rfl

/-- C4: `createComputed` does not invoke the compute function (the event log
is untouched); the first `getComputedValue` invokes it exactly once (exactly
one `computed` event is appended) and returns the computed value; an
immediately following second `getComputedValue` returns the same value and
leaves the store — including the event log — unchanged, so the compute
function is not invoked again. -/
theorem spec_C4 {V : Type} [Inhabited V] (s : Store V) (ck : String) (deps : List String)
    (f : (String → Option V) → V) (h : lookupA s.computed ck = none) :
    (s.createComputed ck deps f).1 = Except.ok () ∧
    ((s.createComputed ck deps f).2).events = s.events ∧
    (((s.createComputed ck deps f).2).getComputedValue ck).1
      = Except.ok (f ((s.createComputed ck deps f).2).currentLookup) ∧
    (((s.createComputed ck deps f).2).getComputedValue ck).2.events
      = ((s.createComputed ck deps f).2).events ++ [Event.computed ck] ∧
    ((((s.createComputed ck deps f).2).getComputedValue ck).2).getComputedValue ck
      = ((((s.createComputed ck deps f).2).getComputedValue ck).1,
         (((s.createComputed ck deps f).2).getComputedValue ck).2) := by
  obtain ⟨hok, ⟨core, hlc, hcf, hcache, hdirty⟩, hatoms, hevents, hv⟩ :=
    createComputed_spec s ck deps f h
  have hget := getComputedValue_dirty ((s.createComputed ck deps f).2) ck core hlc hdirty
  refine ⟨hok, hevents, ?_, ?_, ?_⟩
  · rw [hget, hcf]
  · rw [hget]
  · have hlc2 : lookupA ((((s.createComputed ck deps f).2).getComputedValue ck).2).computed ck
        = some { core with
                   cachedValue :=
                     some (core.compute ((s.createComputed ck deps f).2).currentLookup),
                   dirty := false } := by
      rw [hget]
      show lookupA (setA ck _ ((s.createComputed ck deps f).2).computed) ck = _
      rw [lookupA_setA_self, hlc, Option.map_some']
    rw [hget] at hlc2 ⊢
    exact getComputedValue_clean _ ck _ _ hlc2 rfl rfl

/-- Witness for C4: creating computed `c` over atom `a` logs nothing; the
first read computes 11 exactly once; the second read returns 11 with the
store unchanged. -/
theorem spec_C4_witness :
    (atomStoreA.createComputed "c" ["a"] (fun g => (g "a").getD 0 + 10)).1 = Except.ok () ∧
    depStoreAC.events = atomStoreA.events ∧
    (depStoreAC.getComputedValue "c").1 = Except.ok 11 ∧
    (depStoreAC.getComputedValue "c").2.events = depStoreAC.events ++ [Event.computed "c"] ∧
    ((depStoreAC.getComputedValue "c").2).getComputedValue "c"
      = ((depStoreAC.getComputedValue "c").1, (depStoreAC.getComputedValue "c").2) :=
  spec_C4 atomStoreA "c" ["a"] (fun g => (g "a").getD 0 + 10) rfl

/-- C5: after one or more `setAtomValue` calls since the last read, the first
of which hits a dependency atom carrying the computed cell's `markDirty`
subscription, the next `getComputedValue` invokes the compute function
exactly once (exactly one `computed` event) and the computation reads the
dependencies' current values — the value returned is the compute function
applied to the store's atom values as they stand after ALL the writes, not
at any intermediate state. -/
theorem spec_C5 {V : Type} [Inhabited V] (s : Store V) (ck d : String) (v : V)
    (ws : List (String × V)) (core : ComputedCore V) (aid sid : Nat) (a : AtomCore V)
    (h1 : lookupA s.computed ck = some core)
    (h2 : lookupA s.atoms d = some aid) (h3 : lookupA s.heap aid = some a)
    (h4 : (sid, Callback.markDirty ck) ∈ a.subscribers) :
    ((Store.runWrites ((d, v) :: ws) s).getComputedValue ck).1
      = Except.ok (core.compute (Store.runWrites ((d, v) :: ws) s).currentLookup) ∧
    ((Store.runWrites ((d, v) :: ws) s).getComputedValue ck).2.events
      = (Store.runWrites ((d, v) :: ws) s).events ++ [Event.computed ck] := by
  obtain ⟨c1, hl1, hcomp1, hd1⟩ := setAtomValue_marks_dirty s d v ck core aid sid a h1 h2 h3 h4
  obtain ⟨c2, hl2, hcomp2, hd2⟩ := runWrites_dirty ck ws ((s.setAtomValue d v).2) c1 hl1 hd1
  have hstep : Store.runWrites ((d, v) :: ws) s
      = Store.runWrites ws ((s.setAtomValue d v).2) := rfl
  have hget := getComputedValue_dirty (Store.runWrites ws ((s.setAtomValue d v).2)) ck c2 hl2 hd2
  refine ⟨?_, ?_⟩
  · rw [hstep, hget, hcomp2, hcomp1]
  · rw [hstep, hget]

/-- Witness for C5: writing 5 to dependency `a` then reading computed `c`
recomputes once and yields 5 + 10 = 15, with exactly one `computed` event. -/
theorem spec_C5_witness :
    ((Store.runWrites [("a", 5)] depStoreAC).getComputedValue "c").1 = Except.ok 15 ∧
    ((Store.runWrites [("a", 5)] depStoreAC).getComputedValue "c").2.events
      = (Store.runWrites [("a", 5)] depStoreAC).events ++ [Event.computed "c"] :=
  spec_C5 depStoreAC "c" "a" 5 []
    ⟨(fun g => (g "a").getD 0 + 10), [0], [0], none, true⟩ 0 0
    ⟨1, [(0, Callback.markDirty "c")], 1, false⟩ rfl rfl rfl (by decide)

/-- C9: atom keys and computed keys live in disjoint namespaces —
`createAtom` checks only the atom map and `createComputed` only the computed
map, so the same key can simultaneously name an atom and a computed (both
creates succeed), after which `getAtomValue` reads the atom's value and
`getComputedValue` evaluates the computed cell: two distinct cells. -/
theorem spec_C9 {V : Type} [Inhabited V] (s : Store V) (k : String) (v : V)
    (deps : List String) (f : (String → Option V) → V)
    (hA : lookupA s.atoms k = none) (hC : lookupA s.computed k = none) :
    (s.createAtom k v).1 = Except.ok () ∧
    ((s.createAtom k v).2.createComputed k deps f).1 = Except.ok () ∧
    ((((s.createAtom k v).2.createComputed k deps f).2).getAtomValue k).1 = Except.ok v ∧
    ((((s.createAtom k v).2.createComputed k deps f).2).getComputedValue k).1
      = Except.ok (f ((((s.createAtom k v).2.createComputed k deps f).2).currentLookup)) := by
  have hcr : s.createAtom k v = (Except.ok (),
      { s with heap := (s.nextAtomId, (⟨v, [], 0, false⟩ : AtomCore V)) :: s.heap,
               nextAtomId := s.nextAtomId + 1,
               atoms := (k, s.nextAtomId) :: s.atoms }) := by
    simp only [Store.createAtom, hA]
  have hA1 : lookupA ((k, s.nextAtomId) :: s.atoms) k = some s.nextAtomId := by
    simp [lookupA]
  have hH1 : lookupA ((s.nextAtomId, (⟨v, [], 0, false⟩ : AtomCore V)) :: s.heap) s.nextAtomId
      = some ⟨v, [], 0, false⟩ := by
    simp [lookupA]
  rw [hcr]
  obtain ⟨hok, ⟨core, hlc, hcf, hcache, hdirty⟩, hatoms, hevents, hv⟩ :=
    createComputed_spec
      { s with heap := (s.nextAtomId, (⟨v, [], 0, false⟩ : AtomCore V)) :: s.heap,
               nextAtomId := s.nextAtomId + 1,
               atoms := (k, s.nextAtomId) :: s.atoms }
      k deps f hC
  refine ⟨rfl, hok, ?_, ?_⟩
  · have h1 : lookupA ((({ s with
        heap := (s.nextAtomId, (⟨v, [], 0, false⟩ : AtomCore V)) :: s.heap,
        nextAtomId := s.nextAtomId + 1,
        atoms := (k, s.nextAtomId) :: s.atoms } : Store V).createComputed k deps f).2).atoms k
        = some s.nextAtomId := by
      rw [hatoms]
      exact hA1
    have h2 := hv s.nextAtomId
    rw [hH1] at h2
    obtain ⟨a', ha', hval⟩ := Option.map_eq_some'.mp h2
    simp [Store.getAtomValue, h1, ha', hval]
  · have hget := getComputedValue_dirty _ k core hlc hdirty
    rw [hget, hcf]

/-- Witness for C9: the key `x` names an atom (value 1) and a computed
(value 2) at the same time; both creates succeed and both reads succeed. -/
theorem spec_C9_witness :
    ((Store.empty Nat).createAtom "x" 1).1 = Except.ok () ∧
    (((Store.empty Nat).createAtom "x" 1).2.createComputed "x" ["x"]
        (fun g => (g "x").getD 0 + 1)).1 = Except.ok () ∧
    (((((Store.empty Nat).createAtom "x" 1).2.createComputed "x" ["x"]
        (fun g => (g "x").getD 0 + 1)).2).getAtomValue "x").1 = Except.ok 1 ∧
    (((((Store.empty Nat).createAtom "x" 1).2.createComputed "x" ["x"]
        (fun g => (g "x").getD 0 + 1)).2).getComputedValue "x").1 = Except.ok 2 :=
  spec_C9 (Store.empty Nat) "x" 1 ["x"] (fun g => (g "x").getD 0 + 1) rfl rfl

/-- C10 (the claim fails on the code; this theorem evaluates the engine):
`deleteAtom` indeed never fails — on the missing key `zzz` it returns the
store unchanged and on the existing key `x` it removes exactly that cell,
leaving the computed registry untouched — and `deleteComputed` returns
normally on a missing key and on a computed whose dependency cells are all
alive, removing exactly that cell.  But on the trace
`createAtom a; createComputed c [a]; deleteAtom a; deleteComputed c` the
destructor `~ComputedCore` walks `dependencies_[i]->unsubscribe(...)`
through an `AtomCore*` that `deleteAtom` already destroyed — a
use-after-free (`none` in the model), not the unconditional normal return
the claim states. -/
theorem spec_C10 :
    fullStoreXC.deleteAtom "zzz" = fullStoreXC ∧
    fullStoreXC.deleteComputed "zzz" = some fullStoreXC ∧
    lookupA (fullStoreXC.deleteAtom "x").atoms "x" = none ∧
    (fullStoreXC.deleteAtom "x").computed = fullStoreXC.computed ∧
    (fullStoreXC.deleteComputed "c").map (fun t => lookupA t.computed "c") = some none ∧
    (fullStoreXC.deleteComputed "c").map (fun t => t.atoms) = some fullStoreXC.atoms ∧
    (depStoreAC.deleteAtom "a").deleteComputed "c" = none :=
  ⟨rfl, rfl, rfl, rfl, rfl, rfl, rfl⟩

end NitroState
